import Mathlib

/-!
Verification development for the iPIXEL Color command encoder and text
renderer (`custom_components/ipixel_color/device/commands.py` and
`custom_components/ipixel_color/display/text_renderer.py`).

Byte strings are modelled as `List Nat` with elements in `[0, 255]`.
Python operations that can raise are modelled in `Except PyError`, with a
constructor per Python exception class that the modelled code can raise.
-/

/-- Python exception classes reachable from the modelled code:
`OverflowError` from `int.to_bytes` when the integer does not fit, and
`ValueError` from the `bytes(...)` constructor or `bytearray.append` when
an element is outside `[0, 255]`. -/
inductive PyError where
  | overflowError
  | valueError
deriving DecidableEq, Repr

/-- Little-endian byte decomposition of `n` into exactly `len` bytes
(the value written by `n.to_bytes(len, 'little')` when it succeeds). -/
def natToLE (len n : Nat) : List Nat :=
  match len with
  | 0 => []
  | k + 1 => (n % 256) :: natToLE k (n / 256)

/-- Model of Python `n.to_bytes(len, 'little')`: little-endian bytes when
`n` fits in `len` bytes, `OverflowError` otherwise. -/
def toBytesLE (len n : Nat) : Except PyError (List Nat) :=
  if n < 2 ^ (8 * len) then Except.ok (natToLE len n) else Except.error PyError.overflowError

/-- Little-endian decoding of a byte list back to a natural number. -/
def fromLEBytes : List Nat → Nat
  | [] => 0
  | b :: rest => b + 256 * fromLEBytes rest

/-- Model of the Python `bytes([...])` constructor: succeeds iff every
element is in `[0, 255]`, raising `ValueError` otherwise. -/
def pyBytes (xs : List Int) : Except PyError (List Nat) :=
  if xs.all (fun x => 0 ≤ x && x ≤ 255) then Except.ok (xs.map Int.toNat)
  else Except.error PyError.valueError

/-- Model of Python `bytearray.append b`: the appended single byte when
`b` is in `[0, 255]`, `ValueError` otherwise. -/
def byteAppend (b : Int) : Except PyError (List Nat) :=
  if 0 ≤ b ∧ b ≤ 255 then Except.ok [b.toNat] else Except.error PyError.valueError

/-- One shift round of the reflected CRC-32 bit loop
(polynomial `0xEDB88320`). -/
def crcRound (c : Nat) : Nat :=
  if c % 2 = 1 then (c / 2) ^^^ 0xEDB88320 else c / 2

/-- Iterate `crcRound` the given number of times. -/
def crcRounds : Nat → Nat → Nat
  | 0, c => c
  | n + 1, c => crcRounds n (crcRound c)

/-- Model of `zlib.crc32` on a byte list: standard CRC-32
(IEEE 802.3, reflected polynomial `0xEDB88320`, initial value and final
xor `0xFFFFFFFF`). `zlib` is Python standard library, outside the
repository; this is the standard algorithm it documents. -/
def crc32 (data : List Nat) : Nat :=
  (data.foldl (fun crc b => crcRounds 8 (crc ^^^ b)) 0xFFFFFFFF) ^^^ 0xFFFFFFFF

/-- `make_power_command` from `device/commands.py`:
`bytes([5, 0, 7, 1, on_byte])` with `on_byte = 1 if on else 0`. -/
def make_power_command (powerOn : Bool) : Except PyError (List Nat) :=
  pyBytes [5, 0, 7, 1, if powerOn then 1 else 0]

/-- `make_diy_mode_command` from `device/commands.py`:
`bytes([5, 0, 4, 1, mode])`, default mode 1. -/
def make_diy_mode_command (mode : Int) : Except PyError (List Nat) :=
  pyBytes [5, 0, 4, 1, mode]

/-- `make_command_payload` from `device/commands.py`: frame a payload as
`total_length.to_bytes(2,'little') ++ opcode.to_bytes(2,'little') ++ payload`
with `total_length = len(payload) + 4`. -/
def make_command_payload (opcode : Nat) (payload : List Nat) : Except PyError (List Nat) :=
  match toBytesLE 2 (payload.length + 4) with
  | Except.error e => Except.error e
  | Except.ok lenBytes =>
    match toBytesLE 2 opcode with
    | Except.error e => Except.error e
    | Except.ok opBytes => Except.ok (lenBytes ++ opBytes ++ payload)

/-- `make_default_mode_command` from `device/commands.py`:
`make_command_payload(0x8003, bytes())`. -/
def make_default_mode_command : Except PyError (List Nat) :=
  make_command_payload 0x8003 []

/-- The PNG payload layout built by `make_png_command`:
`[0x00][data_size:u32-LE][crc32:u32-LE][0x00][buffer_number:u8][png_data]`. -/
def pngPayloadBytes (png_data : List Nat) (buffer_number : Nat) : List Nat :=
  [0] ++ natToLE 4 png_data.length ++ natToLE 4 (crc32 png_data &&& 0xFFFFFFFF)
    ++ [0] ++ [buffer_number] ++ png_data

/-- `make_png_command` from `device/commands.py`: builds the PNG payload
(`0x00`, `data_size.to_bytes(4,'little')`, `data_crc.to_bytes(4,'little')`,
`0x00`, `buffer_number` appended as one byte, then the raw data) and frames
it with length `len(payload) + 4` and the literal opcode bytes
`[0x02, 0x00]`, in the source's evaluation order. -/
def make_png_command (png_data : List Nat) (buffer_number : Int) : Except PyError (List Nat) :=
  let data_size := png_data.length
  let data_crc := crc32 png_data &&& 0xFFFFFFFF
  match toBytesLE 4 data_size with
  | Except.error e => Except.error e
  | Except.ok sizeBytes =>
    match toBytesLE 4 data_crc with
    | Except.error e => Except.error e
    | Except.ok crcBytes =>
      match byteAppend buffer_number with
      | Except.error e => Except.error e
      | Except.ok bufByte =>
        let payload := [0] ++ sizeBytes ++ crcBytes ++ [0] ++ bufByte ++ png_data
        match toBytesLE 2 (payload.length + 4) with
        | Except.error e => Except.error e
        | Except.ok lenBytes => Except.ok (lenBytes ++ [0x02, 0x00] ++ payload)

/-- Minimum font size bound used by the auto-fit search
(`MIN_FONT_SIZE = 4` in `display/text_renderer.py`). -/
def MIN_FONT_SIZE : Nat := 4

/-- A text bounding box as returned by PIL's `draw.textbbox((0,0), line, font)`:
corners `(x0, y0, x1, y1)`. -/
structure BBox where
  x0 : Int
  y0 : Int
  x1 : Int
  y1 : Int

/-- Width of a bounding box, `bbox[2] - bbox[0]` in the source. -/
def bboxWidth (b : BBox) : Int := b.x1 - b.x0

/-- Height of a bounding box, `bbox[3] - bbox[1]` in the source. -/
def bboxHeight (b : BBox) : Int := b.y1 - b.y0

/-- One `draw.text((x, y), line, ...)` call recorded by the renderer. -/
structure DrawOp where
  x : Int
  y : Int
  line : String

/-- The external PIL / filesystem collaborators of `text_renderer.py`,
abstracted over the font object type `F`:
`fontExists` models the `font_path.exists()` check of `_get_font_path`;
`truetype` models `ImageFont.truetype(path, size)`, which may raise;
`loadDefault` models `ImageFont.load_default()` (a size-independent
built-in bitmap font); `bbox` models `draw.textbbox((0,0), line, font)`;
`save` models canvas allocation, drawing and PNG serialization
(`Image.new`, `draw.text`, `img.save`), which are total on valid inputs. -/
structure PILEnv (F : Type) where
  fontExists : String → Bool
  truetype : String → Nat → Except Unit F
  loadDefault : F
  bbox : F → String → BBox
  save : Nat → Nat → Bool → List DrawOp → List Nat

/-- The font extensions recognized by `_get_font_path`. -/
def fontExtensions : List String := [".ttf", ".otf", ".woff", ".woff2"]

/-- The extension-defaulting step of `_get_font_path`: append `.ttf`
unless the lowercased name already ends in a recognized extension. -/
def normalizeFontName (fontName : String) : String :=
  if fontExtensions.any (fun ext => fontName.toLower.endsWith ext) then fontName
  else fontName ++ ".ttf"

/-- `_get_font_path` from `display/text_renderer.py`: normalize the name,
then return it as the path when the file exists in the fonts folder,
`none` (with a logged warning) otherwise. -/
def get_font_path {F : Type} (env : PILEnv F) (fontName : String) : Option String :=
  let name := normalizeFontName fontName
  if env.fontExists name then some name else none

/-- `get_fixed_font` from `display/text_renderer.py`: try the named font
at the given size via `ImageFont.truetype`, falling back to
`ImageFont.load_default()` when the name is absent, the file is not found,
or loading raises. -/
def get_fixed_font {F : Type} (env : PILEnv F) (size : Nat) (fontName : Option String) : F :=
  match fontName with
  | some name =>
    match get_font_path env name with
    | some path =>
      match env.truetype path size with
      | Except.ok f => f
      | Except.error _ => env.loadDefault
    | none => env.loadDefault
  | none => env.loadDefault

/-- The per-candidate-size font loading inside `get_optimal_font`'s loop:
the custom font at this size when it loads, else the default font. -/
def loadCandidate {F : Type} (env : PILEnv F) (fontName : Option String) (size : Nat) : F :=
  match fontName with
  | some name =>
    match get_font_path env name with
    | some path =>
      match env.truetype path size with
      | Except.ok f => f
      | Except.error _ => env.loadDefault
    | none => env.loadDefault
  | none => env.loadDefault

/-- The fit check inside `get_optimal_font`'s loop for one font: every
line's bbox width is at most `maxWidth`, and the sum of all lines' bbox
heights is at most `maxHeight` (the source breaks early on a too-wide
line, which yields the same boolean). -/
def fitsAt {F : Type} (env : PILEnv F) (lines : List String) (maxWidth maxHeight : Nat)
    (f : F) : Bool :=
  lines.all (fun line => bboxWidth (env.bbox f line) ≤ (maxWidth : Int)) &&
    (lines.map (fun line => bboxHeight (env.bbox f line))).sum ≤ (maxHeight : Int)

/-- The fit check at a candidate size, with the font that the loop body
loads for that size. -/
def sizeFits {F : Type} (env : PILEnv F) (fontName : Option String) (lines : List String)
    (maxWidth maxHeight : Nat) (size : Nat) : Bool :=
  fitsAt env lines maxWidth maxHeight (loadCandidate env fontName size)

/-- Python `range(start, stop, -1)` as a list: `start, start-1, ..., stop+1`
(empty when `start ≤ stop`; the stop bound is exclusive). -/
def pyRangeDown : Nat → Nat → List Nat
  | 0, _ => []
  | start + 1, stop =>
    if start + 1 ≤ stop then [] else (start + 1) :: pyRangeDown start stop

/-- The candidate sizes tried by `get_optimal_font`:
`range(min(max_height, max_width), MIN_FONT_SIZE, -1)`. -/
def candidateSizes (maxWidth maxHeight : Nat) : List Nat :=
  pyRangeDown (min maxHeight maxWidth) MIN_FONT_SIZE

/-- `get_optimal_font` from `display/text_renderer.py`: scan the candidate
sizes from large to small, loading the font for each size and returning
the first one whose measured text fits; fall back to
`ImageFont.load_default()` when no candidate fits. -/
def get_optimal_font {F : Type} (env : PILEnv F) (lines : List String)
    (maxWidth maxHeight : Nat) (fontName : Option String) : F :=
  match (candidateSizes maxWidth maxHeight).find?
      (fun size => sizeFits env fontName lines maxWidth maxHeight size) with
  | some size => loadCandidate env fontName size
  | none => env.loadDefault

/-- The line splitting of `render_text_to_png`:
`text.split('\n') if '\n' in text else [text]`. -/
def splitLines (text : String) : List String :=
  if text.contains '\n' then text.splitOn "\n" else [text]

/-- The drawing loop of `render_text_to_png`: each line is drawn at
`x = (width - line_width) // 2` and the running `current_y`, which then
advances by the line's measured height (Python `//` is floor division). -/
def drawOps {F : Type} (env : PILEnv F) (f : F) (width : Nat) :
    List String → Int → List DrawOp
  | [], _ => []
  | line :: rest, y =>
    { x := ((width : Int) - bboxWidth (env.bbox f line)).fdiv 2, y := y, line := line } ::
      drawOps env f width rest (y + bboxHeight (env.bbox f line))

/-- `render_text_to_png` from `display/text_renderer.py`: split the text
into lines, choose the font (fixed size or auto-fit), measure total
height, center vertically at `(height - total_height) // 2`, draw each
line centered horizontally, and serialize the canvas to PNG bytes. -/
def render_text_to_png {F : Type} (env : PILEnv F) (text : String) (width height : Nat)
    (antialias : Bool) (fontSize : Option Nat) (fontName : Option String) :
    Except PyError (List Nat) :=
  let lines := splitLines text
  let fontObj :=
    match fontSize with
    | some s => get_fixed_font env s fontName
    | none => get_optimal_font env lines width height fontName
  let totalHeight := (lines.map (fun line => bboxHeight (env.bbox fontObj line))).sum
  let yStart := ((height : Int) - totalHeight).fdiv 2
  Except.ok (env.save width height antialias (drawOps env fontObj width lines yStart))

/-- A concrete PIL environment over `F := Nat` (the font object is its
size) in which text is 1 pixel wide when the font size is at most 4 and
1000 pixels wide otherwise: text fits only at sizes the search never
tests. -/
def envNarrow : PILEnv Nat where
  fontExists _ := true
  truetype _ size := Except.ok size
  loadDefault := 999
  bbox f _ := { x0 := 0, y0 := 0, x1 := if f ≤ 4 then 1 else 1000, y1 := 0 }
  save _ _ _ _ := []

/-- A concrete PIL environment over `F := Nat` whose measurements grow
with the font size: a line's bounding box is `size × size`. -/
def envMono : PILEnv Nat where
  fontExists _ := true
  truetype _ size := Except.ok size
  loadDefault := 0
  bbox f _ := { x0 := 0, y0 := 0, x1 := f, y1 := f }
  save _ _ _ _ := [0]

/-- A concrete PIL environment over `F := Nat` in which every attempt to
load a truetype font raises. -/
def envFail : PILEnv Nat where
  fontExists _ := true
  truetype _ _ := Except.error ()
  loadDefault := 7
  bbox f _ := { x0 := 0, y0 := 0, x1 := f, y1 := f }
  save _ _ _ _ := [137, 80, 78, 71]

theorem natToLE_length (len n : Nat) : (natToLE len n).length = len := by
  induction len generalizing n with
  | zero => rfl
  | succ k ih => simp [natToLE, ih]

theorem fromLEBytes_natToLE (len n : Nat) :
    fromLEBytes (natToLE len n) = n % 2 ^ (8 * len) := by
  induction len generalizing n with
  | zero => simp [natToLE, fromLEBytes, Nat.mod_one]
  | succ k ih =>
    have h2 : 2 ^ (8 * (k + 1)) = 256 * 2 ^ (8 * k) := by ring
    rw [natToLE, fromLEBytes, ih, h2, Nat.mod_mul]

theorem make_command_payload_ok (opcode : Nat) (payload : List Nat)
    (hop : opcode < 65536) (hlen : payload.length ≤ 65531) :
    make_command_payload opcode payload =
      Except.ok (natToLE 2 (payload.length + 4) ++ natToLE 2 opcode ++ payload) := by
  have h1 : payload.length + 4 < 2 ^ (8 * 2) := by norm_num; omega
  have h2 : opcode < 2 ^ (8 * 2) := by norm_num; omega
  rw [make_command_payload, toBytesLE, if_pos h1, toBytesLE, if_pos h2]

theorem make_command_payload_overflow (opcode : Nat) (payload : List Nat)
    (hlen : 65531 < payload.length) :
    make_command_payload opcode payload = Except.error PyError.overflowError := by
  have h1 : ¬ payload.length + 4 < 2 ^ (8 * 2) := by norm_num; omega
  rw [make_command_payload, toBytesLE, if_neg h1]

theorem make_png_command_ok (png_data : List Nat) (buf : Int)
    (hbuf0 : 0 ≤ buf) (hbuf1 : buf ≤ 255) (hlen : png_data.length ≤ 65520) :
    make_png_command png_data buf =
      Except.ok (natToLE 2 (png_data.length + 15) ++ [2, 0] ++ pngPayloadBytes png_data buf.toNat) := by
  have hsize : png_data.length < 2 ^ (8 * 4) := by norm_num; omega
  have hcrc : crc32 png_data &&& 0xFFFFFFFF < 2 ^ (8 * 4) := by
    have h := Nat.and_le_right (n := crc32 png_data) (m := 0xFFFFFFFF)
    norm_num at h ⊢
    omega
  have hpl : ([0] ++ natToLE 4 png_data.length ++ natToLE 4 (crc32 png_data &&& 0xFFFFFFFF)
      ++ [0] ++ [buf.toNat] ++ png_data).length + 4 = png_data.length + 15 := by
    simp [natToLE_length]
    omega
  have hfit : png_data.length + 15 < 2 ^ (8 * 2) := by norm_num; omega
  simp only [make_png_command, toBytesLE, byteAppend, if_pos hsize, if_pos hcrc,
    if_pos (And.intro hbuf0 hbuf1), hpl, if_pos hfit, pngPayloadBytes]

theorem mem_pyRangeDown (start stop s : Nat) :
    s ∈ pyRangeDown start stop ↔ stop < s ∧ s ≤ start := by
  induction start with
  | zero => simp [pyRangeDown]; omega
  | succ k ih =>
    rw [pyRangeDown]
    by_cases h : k + 1 ≤ stop
    · simp [h]; omega
    · simp [h, ih]; omega

theorem find?_pyRangeDown_max (p : Nat → Bool) (start stop s : Nat)
    (h : (pyRangeDown start stop).find? p = some s) :
    p s = true ∧ s ∈ pyRangeDown start stop ∧
      ∀ t ∈ pyRangeDown start stop, p t = true → t ≤ s := by
  induction start with
  | zero => simp [pyRangeDown] at h
  | succ k ih =>
    rw [pyRangeDown] at h ⊢
    by_cases hs : k + 1 ≤ stop
    · simp [hs] at h
    · simp only [if_neg hs] at h ⊢
      rw [List.find?_cons] at h
      cases hp : p (k + 1) with
      | true =>
        rw [hp] at h
        injection h with h
        subst h
        refine ⟨hp, List.mem_cons_self _ _, ?_⟩
        intro t ht _
        rcases List.mem_cons.mp ht with h1 | h1
        · omega
        · have := (mem_pyRangeDown k stop t).mp h1
          omega
      | false =>
        rw [hp] at h
        obtain ⟨hps, hmem, hmax⟩ := ih h
        refine ⟨hps, List.mem_cons_of_mem _ hmem, ?_⟩
        intro t ht hpt
        rcases List.mem_cons.mp ht with h1 | h1
        · subst h1; rw [hp] at hpt; exact absurd hpt (by simp)
        · exact hmax t h1 hpt

theorem natToLE_two (n : Nat) : natToLE 2 n = [n % 256, n / 256 % 256] := rfl

theorem natToLE_four (n : Nat) :
    natToLE 4 n = [n % 256, n / 256 % 256, n / 256 / 256 % 256, n / 256 / 256 / 256 % 256] := rfl

theorem crc32_nil : crc32 [] = 0 := by
  simp [crc32]

theorem loadCandidate_default {F : Type} (env : PILEnv F) (fontName : Option String)
    (size : Nat) (hfail : ∀ p s, env.truetype p s = Except.error ()) :
    loadCandidate env fontName size = env.loadDefault := by
  cases fontName with
  | none => rfl
  | some name =>
    cases hgp : get_font_path env name with
    | none => simp [loadCandidate, hgp]
    | some path => simp [loadCandidate, hgp, hfail path size]

theorem get_fixed_font_default {F : Type} (env : PILEnv F) (size : Nat)
    (fontName : Option String) (hfail : ∀ p s, env.truetype p s = Except.error ()) :
    get_fixed_font env size fontName = env.loadDefault := by
  cases fontName with
  | none => rfl
  | some name =>
    cases hgp : get_font_path env name with
    | none => simp [get_fixed_font, hgp]
    | some path => simp [get_fixed_font, hgp, hfail path size]

/-- C1: for every payload longer than 65531 bytes, the generic framing
(`make_command_payload`) fails with the size-limit error rather than
truncating or wrapping the 16-bit length field, and `make_png_command`,
built on the same framing, fails the same way once its 11-byte payload
header pushes the framed payload over the limit. -/
theorem oversized_payload_fails (opcode : Nat) (payload : List Nat)
    (png_data : List Nat) (buf : Int)
    (hlen : 65531 < payload.length)
    (hbuf0 : 0 ≤ buf) (hbuf1 : buf ≤ 255)
    (hpng : 65520 < png_data.length) (hpng32 : png_data.length < 2 ^ 32) :
    make_command_payload opcode payload = Except.error PyError.overflowError ∧
    make_png_command png_data buf = Except.error PyError.overflowError := by
  constructor
  · exact make_command_payload_overflow opcode payload hlen
  · have hsize : png_data.length < 2 ^ (8 * 4) := by norm_num; omega
    have hcrc : crc32 png_data &&& 0xFFFFFFFF < 2 ^ (8 * 4) := by
      have h := Nat.and_le_right (n := crc32 png_data) (m := 0xFFFFFFFF)
      norm_num at h ⊢
      omega
    have hpl : ([0] ++ natToLE 4 png_data.length ++ natToLE 4 (crc32 png_data &&& 0xFFFFFFFF)
        ++ [0] ++ [buf.toNat] ++ png_data).length + 4 = png_data.length + 15 := by
      simp [natToLE_length]
      omega
    have hfit : ¬ png_data.length + 15 < 2 ^ (8 * 2) := by norm_num; omega
    simp only [make_png_command, toBytesLE, byteAppend, if_pos hsize, if_pos hcrc,
      if_pos (And.intro hbuf0 hbuf1), hpl, if_neg hfit]

/-- C1 witness: concrete oversized inputs. -/
theorem oversized_payload_fails_witness :
    make_command_payload 2 (List.replicate 65532 0) = Except.error PyError.overflowError ∧
    make_png_command (List.replicate 65521 0) 1 = Except.error PyError.overflowError :=
  oversized_payload_fails 2 (List.replicate 65532 0) (List.replicate 65521 0) 1
    (by rw [List.length_replicate]; norm_num) (by norm_num) (by norm_num)
    (by rw [List.length_replicate]; norm_num) (by rw [List.length_replicate]; norm_num)

/-- C3: the pre-baked power and DIY-mode literals coincide byte-for-byte
with the generic framing at opcodes 0x0107 and 0x0104, and the power
command is exactly the 5 bytes `[5, 0, 7, 1, on]`. -/
theorem prebaked_literals_match_framing (powerOn : Bool) (mode : Int)
    (h0 : 0 ≤ mode) (h1 : mode ≤ 255) :
    make_power_command powerOn = make_command_payload 0x0107 [if powerOn then 1 else 0] ∧
    make_power_command powerOn = Except.ok [5, 0, 7, 1, if powerOn then 1 else 0] ∧
    make_diy_mode_command mode = make_command_payload 0x0104 [mode.toNat] := by
  refine ⟨?_, ?_, ?_⟩
  · cases powerOn <;> rfl
  · cases powerOn <;> rfl
  · have hd : make_diy_mode_command mode = Except.ok [5, 0, 4, 1, mode.toNat] := by
      simp [make_diy_mode_command, pyBytes, h0, h1]
    have hf : make_command_payload 0x0104 [mode.toNat] =
        Except.ok [5, 0, 4, 1, mode.toNat] := by
      rw [make_command_payload_ok 0x0104 [mode.toNat] (by norm_num) (by simp)]
      norm_num [natToLE_two]
    rw [hd, hf]

/-- C3 witness: concrete power state and mode. -/
theorem prebaked_literals_match_framing_witness :
    make_power_command true = make_command_payload 0x0107 [1] ∧
    make_power_command true = Except.ok [5, 0, 7, 1, 1] ∧
    make_diy_mode_command 2 = make_command_payload 0x0104 [(2 : Int).toNat] := by
  have h := prebaked_literals_match_framing true 2 (by norm_num) (by norm_num)
  exact ⟨h.1, h.2.1, h.2.2⟩

/-- C4: for every 16-bit opcode and payload of length at most 65531,
framing succeeds with a buffer of length `L + 4` whose first two bytes
little-endian-decode to `L + 4`. -/
theorem frame_length_header (opcode : Nat) (payload : List Nat)
    (hop : opcode < 65536) (hlen : payload.length ≤ 65531) :
    ∃ cmd, make_command_payload opcode payload = Except.ok cmd ∧
      cmd.length = payload.length + 4 ∧
      fromLEBytes (cmd.take 2) = payload.length + 4 := by
  refine ⟨_, make_command_payload_ok opcode payload hop hlen, ?_, ?_⟩
  · simp [natToLE_length]
    omega
  · rw [natToLE_two, natToLE_two]
    simp [fromLEBytes]
    omega

/-- C4 witness: a concrete opcode and payload. -/
theorem frame_length_header_witness :
    ∃ cmd, make_command_payload 7 [10, 20, 30] = Except.ok cmd ∧
      cmd.length = [10, 20, 30].length + 4 ∧
      fromLEBytes (cmd.take 2) = [10, 20, 30].length + 4 :=
  frame_length_header 7 [10, 20, 30] (by norm_num) (by norm_num)

/-- C5: decoding the 4-byte header of a framed command recovers the
opcode and the payload length exactly, and the bytes after the header
are the original payload. -/
theorem frame_roundtrip (opcode : Nat) (payload : List Nat)
    (hop : opcode < 65536) (hlen : payload.length ≤ 65531) :
    ∃ cmd, make_command_payload opcode payload = Except.ok cmd ∧
      fromLEBytes (cmd.take 2) = payload.length + 4 ∧
      fromLEBytes ((cmd.drop 2).take 2) = opcode ∧
      cmd.drop 4 = payload := by
  refine ⟨_, make_command_payload_ok opcode payload hop hlen, ?_, ?_, ?_⟩
  · rw [natToLE_two, natToLE_two]
    simp [fromLEBytes]
    omega
  · rw [natToLE_two, natToLE_two]
    simp [fromLEBytes]
    omega
  · rw [natToLE_two, natToLE_two]
    rfl

/-- C5 witness: a concrete opcode and payload round-trip. -/
theorem frame_roundtrip_witness :
    ∃ cmd, make_command_payload 0x8003 [1, 2] = Except.ok cmd ∧
      fromLEBytes (cmd.take 2) = [1, 2].length + 4 ∧
      fromLEBytes ((cmd.drop 2).take 2) = 0x8003 ∧
      cmd.drop 4 = [1, 2] :=
  frame_roundtrip 0x8003 [1, 2] (by norm_num) (by norm_num)

/-- C6: `make_png_command` produces the payload
`[0x00][data_size:u32-LE][crc32:u32-LE][0x00][buffer_number:u8][data]`
framed with opcode 0x0002, the CRC-32 computed over the raw image bytes
only; on the empty image both the declared size field and the CRC field
are zero. -/
theorem png_command_layout (png_data : List Nat) (buf : Int)
    (hbuf0 : 0 ≤ buf) (hbuf1 : buf ≤ 255) (hlen : png_data.length ≤ 65520) :
    make_png_command png_data buf =
      make_command_payload 0x0002 (pngPayloadBytes png_data buf.toNat) ∧
    make_png_command [] 1 =
      Except.ok [15, 0, 2, 0, 0, 0, 0, 0, 0, 0, 0, 0, 0, 0, 1] ∧
    crc32 [] = 0 := by
  refine ⟨?_, ?_, crc32_nil⟩
  · rw [make_png_command_ok png_data buf hbuf0 hbuf1 hlen]
    have hpllen : (pngPayloadBytes png_data buf.toNat).length = png_data.length + 11 := by
      simp [pngPayloadBytes, natToLE_length]
      omega
    rw [make_command_payload_ok 0x0002 (pngPayloadBytes png_data buf.toNat) (by norm_num)
      (by omega)]
    rw [hpllen]
    have h15 : png_data.length + 11 + 4 = png_data.length + 15 := by omega
    rw [h15, natToLE_two]
    rfl
  · rw [make_png_command_ok [] 1 (by norm_num) (by norm_num) (by norm_num)]
    rw [pngPayloadBytes, crc32_nil]
    norm_num [natToLE_two, natToLE_four]

/-- C6 witness: a concrete image and buffer number. -/
theorem png_command_layout_witness :
    make_png_command [1, 2, 3] 1 =
      make_command_payload 0x0002 (pngPayloadBytes [1, 2, 3] (1 : Int).toNat) ∧
    make_png_command [] 1 =
      Except.ok [15, 0, 2, 0, 0, 0, 0, 0, 0, 0, 0, 0, 0, 0, 1] ∧
    crc32 [] = 0 :=
  png_command_layout [1, 2, 3] 1 (by norm_num) (by norm_num) (by norm_num)

/-- C7 (amended): `make_diy_mode_command` does not validate the mode
against any device-accepted range, but the `bytes([...])` constructor it
uses does validate the byte range: for mode in `[0, 255]` it returns
`[5, 0, 4, 1, mode]`, for any other integer it raises `ValueError`; with
the default argument 1 it returns `[5, 0, 4, 1, 1]`. -/
theorem diy_mode_byte_range (mode : Int) :
    (0 ≤ mode → mode ≤ 255 → make_diy_mode_command mode = Except.ok [5, 0, 4, 1, mode.toNat]) ∧
    (mode < 0 ∨ 255 < mode → make_diy_mode_command mode = Except.error PyError.valueError) ∧
    make_diy_mode_command 1 = Except.ok [5, 0, 4, 1, 1] := by
  refine ⟨?_, ?_, rfl⟩
  · intro h0 h1
    simp [make_diy_mode_command, pyBytes, h0, h1]
  · intro h
    have hc : ¬ ([5, 0, 4, 1, mode].all fun x => decide (0 ≤ x) && decide (x ≤ 255)) = true := by
      simp only [List.all_cons, List.all_nil, Bool.and_eq_true, decide_eq_true_eq]
      omega
    simp [make_diy_mode_command, pyBytes, hc]

/-- C7 witness: an in-range mode succeeds, an out-of-range mode raises. -/
theorem diy_mode_byte_range_witness :
    make_diy_mode_command 7 = Except.ok [5, 0, 4, 1, (7 : Int).toNat] ∧
    make_diy_mode_command 256 = Except.error PyError.valueError :=
  ⟨(diy_mode_byte_range 7).1 (by norm_num) (by norm_num),
   (diy_mode_byte_range 256).2.1 (by norm_num)⟩

/-- C7 counterexample: the claim that the call succeeds for every integer
mode fails at mode 256, where appending it to a `bytes` value raises
`ValueError` instead of returning `[5, 0, 4, 1, 256]`. -/
theorem diy_mode_unvalidated_counterexample :
    make_diy_mode_command 256 = Except.error PyError.valueError ∧
    ∀ out, make_diy_mode_command 256 ≠ Except.ok out := by
  constructor
  · rfl
  · intro out h
    simp [make_diy_mode_command, pyBytes] at h

/-- C10: `make_png_command` accepts a buffer number only in `[0, 255]`:
outside that range the single-byte append raises `ValueError` and no
command bytes are produced; inside it the byte at offset 14 of the result
is exactly the buffer number. -/
theorem png_buffer_number_byte (png_data : List Nat) (buf : Int)
    (hsize : png_data.length < 2 ^ 32) :
    (buf < 0 ∨ 255 < buf → make_png_command png_data buf = Except.error PyError.valueError) ∧
    (0 ≤ buf → buf ≤ 255 → png_data.length ≤ 65520 →
      ∃ cmd, make_png_command png_data buf = Except.ok cmd ∧
        cmd.getD 14 0 = buf.toNat ∧ 14 < cmd.length) := by
  constructor
  · intro h
    have hsize' : png_data.length < 2 ^ (8 * 4) := by norm_num; omega
    have hcrc : crc32 png_data &&& 0xFFFFFFFF < 2 ^ (8 * 4) := by
      have hr := Nat.and_le_right (n := crc32 png_data) (m := 0xFFFFFFFF)
      norm_num at hr ⊢
      omega
    have hb : ¬ (0 ≤ buf ∧ buf ≤ 255) := by omega
    simp only [make_png_command, toBytesLE, byteAppend, if_pos hsize', if_pos hcrc, if_neg hb]
  · intro hb0 hb1 hlen
    refine ⟨_, make_png_command_ok png_data buf hb0 hb1 hlen, ?_, ?_⟩
    · rw [pngPayloadBytes, natToLE_two, natToLE_four, natToLE_four]
      rfl
    · rw [pngPayloadBytes]
      simp [natToLE_length]
      omega

/-- C10 witness: buffer 300 raises, buffer 5 lands at offset 14. -/
theorem png_buffer_number_byte_witness :
    make_png_command [] 300 = Except.error PyError.valueError ∧
    ∃ cmd, make_png_command [] 5 = Except.ok cmd ∧
      cmd.getD 14 0 = (5 : Int).toNat ∧ 14 < cmd.length :=
  ⟨(png_buffer_number_byte [] 300 (by norm_num)).1 (by norm_num),
   (png_buffer_number_byte [] 5 (by norm_num)).2 (by norm_num) (by norm_num) (by norm_num)⟩

/-- C2 counterexample: on a 10-by-10 canvas the candidate sizes are 10
down to 5 — size 4 is not among the tested candidates — and in an
environment where the text fits only at sizes up to 4 the search returns
the default-font fallback instead of testing size 4. -/
theorem autofit_floor_counterexample :
    ¬ (4 ∈ candidateSizes 10 10) ∧
    candidateSizes 10 10 = [10, 9, 8, 7, 6, 5] ∧
    sizeFits envNarrow (some "f") ["x"] 10 10 4 = true ∧
    get_optimal_font envNarrow ["x"] 10 10 (some "f") = envNarrow.loadDefault ∧
    loadCandidate envNarrow (some "f") 4 = 4 ∧ envNarrow.loadDefault = 999 := by
  refine ⟨by decide, rfl, rfl, rfl, rfl, rfl⟩

/-- C2 (amended): in auto-fit mode the candidate sizes are exactly
`min(width, height)` down to `MIN_FONT_SIZE + 1 = 5`, descending by 1
(Python's `range` excludes the stop bound `MIN_FONT_SIZE = 4`, so size 4
is never tested); the search accepts the first — hence largest — tested
size whose measured lines all fit horizontally and whose summed heights
fit vertically, and falls back to the default font when no tested size
fits. -/
theorem autofit_search_structure {F : Type} (env : PILEnv F) (lines : List String)
    (maxWidth maxHeight : Nat) (fontName : Option String) :
    (∀ s, s ∈ candidateSizes maxWidth maxHeight ↔
      MIN_FONT_SIZE < s ∧ s ≤ min maxHeight maxWidth) ∧
    ((∃ s, s ∈ candidateSizes maxWidth maxHeight ∧
        sizeFits env fontName lines maxWidth maxHeight s = true ∧
        get_optimal_font env lines maxWidth maxHeight fontName = loadCandidate env fontName s ∧
        (∀ t ∈ candidateSizes maxWidth maxHeight,
          sizeFits env fontName lines maxWidth maxHeight t = true → t ≤ s)) ∨
      ((∀ s ∈ candidateSizes maxWidth maxHeight,
          sizeFits env fontName lines maxWidth maxHeight s = false) ∧
        get_optimal_font env lines maxWidth maxHeight fontName = env.loadDefault)) := by
  constructor
  · intro s
    exact mem_pyRangeDown _ _ s
  · cases hfind : (candidateSizes maxWidth maxHeight).find?
        (fun size => sizeFits env fontName lines maxWidth maxHeight size) with
    | some s =>
      left
      obtain ⟨hp, hmem, hmax⟩ := find?_pyRangeDown_max
        (fun size => sizeFits env fontName lines maxWidth maxHeight size)
        (min maxHeight maxWidth) MIN_FONT_SIZE s hfind
      exact ⟨s, hmem, hp, by rw [get_optimal_font, hfind], hmax⟩
    | none =>
      right
      constructor
      · intro s hs
        have h := List.find?_eq_none.mp hfind s hs
        simpa using h
      · rw [get_optimal_font, hfind]

/-- C2 witness: the amended search structure at a concrete canvas. -/
theorem autofit_search_structure_witness :
    ∀ s, s ∈ candidateSizes 10 10 ↔ MIN_FONT_SIZE < s ∧ s ≤ min 10 10 :=
  (autofit_search_structure envNarrow ["x"] 10 10 (some "f")).1

/-- C9: the fit test is downward-contiguous on the tested sizes: if a
tested size S fits and the measured bounding boxes at a smaller tested
size S' are no larger than those at S (the font-scaling property of the
external font library, which holds trivially on the default-font path
where measurement does not depend on the candidate size), then S' fits
too. -/
theorem autofit_monotone {F : Type} (env : PILEnv F) (fontName : Option String)
    (lines : List String) (maxWidth maxHeight S S' : Nat)
    (hS : S ∈ candidateSizes maxWidth maxHeight)
    (hS' : S' ∈ candidateSizes maxWidth maxHeight)
    (hle : S' ≤ S)
    (hmono : ∀ line ∈ lines,
      bboxWidth (env.bbox (loadCandidate env fontName S') line) ≤
        bboxWidth (env.bbox (loadCandidate env fontName S) line) ∧
      bboxHeight (env.bbox (loadCandidate env fontName S') line) ≤
        bboxHeight (env.bbox (loadCandidate env fontName S) line))
    (hfit : sizeFits env fontName lines maxWidth maxHeight S = true) :
    sizeFits env fontName lines maxWidth maxHeight S' = true := by
  simp only [sizeFits, fitsAt, Bool.and_eq_true, List.all_eq_true, decide_eq_true_eq] at hfit ⊢
  obtain ⟨hw, hh⟩ := hfit
  constructor
  · intro line hline
    exact le_trans (hmono line hline).1 (hw line hline)
  · exact le_trans (List.sum_le_sum (fun line hline => (hmono line hline).2)) hh

/-- C9 witness: sizes 7 and 5 on a 10-by-10 canvas in a monotone
measurement environment. -/
theorem autofit_monotone_witness :
    sizeFits envMono (some "f") ["a"] 10 10 5 = true :=
  autofit_monotone envMono (some "f") ["a"] 10 10 7 5 (by decide) (by decide) (by decide)
    (by decide) (by decide)

/-- C8: `render_text_to_png` always returns PNG bytes: it has no failure
path, and even when every truetype font load raises, the failure is
absorbed by falling back to the built-in default font in both the
fixed-size and the auto-fit font selectors. -/
theorem render_text_total {F : Type} (env : PILEnv F) (text : String)
    (width height : Nat) (antialias : Bool) (fontSize : Option Nat)
    (fontName : Option String) (hw : 0 < width) (hh : 0 < height) :
    (∃ out, render_text_to_png env text width height antialias fontSize fontName =
        Except.ok out) ∧
    ((∀ p s, env.truetype p s = Except.error ()) →
      (∀ s, get_fixed_font env s fontName = env.loadDefault) ∧
      get_optimal_font env (splitLines text) width height fontName = env.loadDefault) := by
  constructor
  · exact ⟨_, rfl⟩
  · intro hfail
    constructor
    · intro s
      exact get_fixed_font_default env s fontName hfail
    · cases hfind : (candidateSizes width height).find?
          (fun size => sizeFits env fontName (splitLines text) width height size) with
      | some s =>
        rw [get_optimal_font, hfind]
        exact loadCandidate_default env fontName s hfail
      | none => rw [get_optimal_font, hfind]

/-- C8 witness: rendering concrete text on a 32-by-32 canvas in an
environment whose truetype loader always fails. -/
theorem render_text_total_witness :
    (∃ out, render_text_to_png envFail "HI" 32 32 true none (some "f") = Except.ok out) ∧
    ((∀ p s, envFail.truetype p s = Except.error ()) →
      (∀ s, get_fixed_font envFail s (some "f") = envFail.loadDefault) ∧
      get_optimal_font envFail (splitLines "HI") 32 32 (some "f") = envFail.loadDefault) :=
  render_text_total envFail "HI" 32 32 true none (some "f") (by norm_num) (by norm_num)
